import Mathlib

/-!
Verification of the connection/session layer of `tabby_mcp` (file
`src/tabby_mcp/cdp.py`), shallowly embedded in Lean 4.

The embedding models:
* `TabbyConnection.get_tab` (target resolution, the `_tabs` session cache,
  `start()` bookkeeping),
* `TabbyConnection.list_targets` (filtering the raw `/json` listing),
* `TabbyConnection.execute_js` (expression wrapping and fault translation),
* `TabbyConnection.wait_for` and `TabbyConnection.wait_for_angular`
  (polling loops, with the sequence of poll outcomes observed before the
  deadline abstracted as an explicit list),
* `TabbyConnection.query_with_retry` (bounded retry loop with sleeps),
* the module-level `get_connection` singleton.

Python-level effects are made explicit: the mutable `_tabs` dict and the
`start()` calls become fields of a state record, remote round trips become
input lists of outcomes, and Python exceptions become an `Except` error type
whose constructors name the Python exception classes the code raises.
-/

/-- A Python exception escaping from the cdp layer.  Constructors mirror the
exception classes the code can raise: `ConnectionError("No Tabby tabs found")`,
a raw `IndexError` from `tabs[target]`, `ValueError(f"Target not found: ...")`,
and `RuntimeError(...)` from `execute_js` fault translation. -/
inductive PyError where
  | connectionError (msg : String)
  | indexError
  | valueError (msg : String)
  | runtimeError (msg : String)
  deriving DecidableEq, Repr

/-- A live, started CDP session (a started `pychrome.Tab`).  `sid` is a
creation stamp distinguishing distinct session objects, so that "the identical
cached Session object" is expressible as equality. -/
structure Session where
  ws_url : String
  sid : Nat
  deriving DecidableEq, Repr

/-- A low-level tab handle as returned by `browser.list_tab()`: what `get_tab`
reads from it is its `websocket_url`. -/
structure TabHandle where
  websocket_url : String
  deriving DecidableEq, Repr

/-- The state of a `TabbyConnection` object: the configured `port`, whether
`self.browser` is set, the `_tabs` cache (`ws_url -> Tab`, insertion order
kept, modelled as an association list), a counter supplying fresh session
stamps, and the log of `tab.start()` calls performed so far. -/
structure TabbyConnection where
  port : Nat
  browser : Bool
  tabs : List (String × Session)
  nextSid : Nat
  starts : List String
  deriving DecidableEq, Repr

/-- `TabbyConnection.__init__(port)`. -/
def TabbyConnection.init (port : Nat) : TabbyConnection :=
  ⟨port, false, [], 0, []⟩

/-- `ensure_browser`: create the `pychrome.Browser` handle if absent. -/
def ensureBrowser (c : TabbyConnection) : TabbyConnection :=
  if c.browser then c else { c with browser := true }

/-- Lookup in the `_tabs` dict (`ws_url in self._tabs` / `self._tabs[ws_url]`). -/
def lookupTab (m : List (String × Session)) (k : String) : Option Session :=
  match m with
  | [] => none
  | (k', v) :: rest => if k' = k then some v else lookupTab rest k

/-- A caller-supplied target specifier: `int | str` in the Python signature. -/
inductive Specifier where
  | idx (i : Int)
  | ws (s : String)
  deriving DecidableEq, Repr

/-- Python list indexing `l[i]`: a non-negative index must be `< len(l)`, a
negative index `i` addresses `l[len(l) + i]` and must satisfy `-i ≤ len(l)`;
anything else raises `IndexError` (here: `none`). -/
def pyIndex (l : List α) (i : Int) : Option α :=
  if 0 ≤ i then l.get? i.toNat
  else if i.natAbs ≤ l.length then l.get? (l.length - i.natAbs) else none

/-- The specifier-to-handle step of `get_tab` (lines 53-62): an integer
specifier indexes the freshly fetched list directly (`tabs[target]`, raising
`IndexError` when out of range); a string specifier scans for a matching
`websocket_url` and raises `ValueError` when none matches. -/
def resolveSpec (tabList : List TabHandle) : Specifier → Except PyError TabHandle
  | .idx i =>
    match pyIndex tabList i with
    | some t => .ok t
    | none => .error .indexError
  | .ws s =>
    match tabList.find? (fun t => t.websocket_url == s) with
    | some t => .ok t
    | none => .error (.valueError ("Target not found: " ++ s))

/-- `TabbyConnection.get_tab(target)`.  The freshly fetched
`self.browser.list_tab()` result is passed in as `tabList`.  Raises
`ConnectionError` on an empty list, resolves the specifier, then serves the
session from the `_tabs` cache, starting and caching a new session only on a
cache miss. -/
def getTab (c : TabbyConnection) (tabList : List TabHandle) (target : Specifier) :
    Except PyError (Session × TabbyConnection) :=
  let c := ensureBrowser c
  if tabList.isEmpty then
    .error (.connectionError "No Tabby tabs found")
  else
    match resolveSpec tabList target with
    | .error e => .error e
    | .ok t =>
      let ws := t.websocket_url
      match lookupTab c.tabs ws with
      | some s => .ok (s, c)
      | none =>
        let s : Session := ⟨ws, c.nextSid⟩
        .ok (s, { c with
                    tabs := c.tabs ++ [(ws, s)],
                    nextSid := c.nextSid + 1,
                    starts := c.starts ++ [ws] })

/-- A raw entry of the `GET /json` listing, a JSON object read with `.get`
(absent keys yield `None`, modelled as `none`). -/
structure RawTarget where
  type? : Option String
  title? : Option String
  url? : Option String
  webSocketDebuggerUrl? : Option String
  deriving DecidableEq, Repr

/-- A target descriptor produced by `list_targets`. -/
structure TargetDescriptor where
  index : Nat
  title : String
  url : String
  ws_url : String
  deriving DecidableEq, Repr

/-- Builds one descriptor from a raw entry and the index paired with it by
`enumerate`. -/
def descOf (i : Nat) (t : RawTarget) : TargetDescriptor :=
  ⟨i, t.title?.getD "", t.url?.getD "", t.webSocketDebuggerUrl?.getD ""⟩

/-- `TabbyConnection.list_targets` (lines 33-42): the comprehension
`[{...} for i, t in enumerate(targets) if t.get("type") == "page"]`.
Note that `enumerate` runs over the raw listing, before the type filter. -/
def listTargets (targets : List RawTarget) : List TargetDescriptor :=
  (targets.enum.filter (fun p => p.2.type? == some "page")).map
    (fun p => descOf p.1 p.2)

/-- A JSON-representable value as decoded from `result.value` by the
transport library.  Python conflates JavaScript `null`/`undefined` with an
absent value (both become `None` via `.get`), so absence is modelled at the
use site as `Option JsVal` and `JsVal` itself carries only present values. -/
inductive JsVal where
  | str (s : String)
  | num (n : Int)
  | bool (b : Bool)
  deriving DecidableEq, Repr

/-- The `exception` object inside `exceptionDetails`, read with
`.get("description", "")`. -/
structure ExceptionObj where
  description? : Option String
  deriving DecidableEq, Repr

/-- The `exceptionDetails` object of a `Runtime.evaluate` reply, read with
`.get("text", "Unknown error")` and `.get("exception", {})`. -/
structure ExceptionDetails where
  text? : Option String
  exception? : Option ExceptionObj
  deriving DecidableEq, Repr

/-- The `result` object of a `Runtime.evaluate` reply (`.get("value")`). -/
structure ResultObj where
  value? : Option JsVal
  deriving DecidableEq, Repr

/-- A complete `Runtime.evaluate` reply: an optional `exceptionDetails` key
and an optional `result` key. -/
structure EvalResult where
  exceptionDetails? : Option ExceptionDetails
  result? : Option ResultObj
  deriving DecidableEq, Repr

/-- The parameters `execute_js` passes to `tab.Runtime.evaluate`. -/
structure EvalRequest where
  expression : String
  returnByValue : Bool
  awaitPromise : Bool
  deriving DecidableEq, Repr

/-- The submission step of `execute_js` (lines 94-101): when `wrap` is true
the expression is rewritten to `(async () => { <expression> })()` and
`awaitPromise` is set; `returnByValue` is always true. -/
def executeJsRequest (expression : String) (wrap : Bool) : EvalRequest :=
  let expression :=
    if wrap then "(async () => \x7b " ++ expression ++ " \x7d)()" else expression
  ⟨expression, true, wrap⟩

/-- The reply-handling step of `execute_js` (lines 102-108): if the reply
carries `exceptionDetails`, raise `RuntimeError` with message
`f"{error_text}: {description}" if description else error_text`; otherwise
return `result.get("result", {}).get("value")`. -/
def translateResult (r : EvalResult) : Except PyError (Option JsVal) :=
  match r.exceptionDetails? with
  | some ed =>
    let errorText := ed.text?.getD "Unknown error"
    let description :=
      match ed.exception? with
      | some ex => ex.description?.getD ""
      | none => ""
    .error (.runtimeError
      (if description ≠ "" then errorText ++ ": " ++ description else errorText))
  | none =>
    .ok (match r.result? with
         | some ro => ro.value?
         | none => none)

/-- `TabbyConnection.wait_for` (lines 196-227): a poll every 0.1s until the
deadline.  `polls` is the sequence of outcomes of the successive
`execute_js` calls that fit before the deadline: each is either a raised
Python exception or the truthiness of the returned value.  The loop body has
no exception handler, so an error outcome escapes the loop; a truthy outcome
returns `True`; exhausting the deadline returns `False`. -/
def waitFor : List (Except PyError Bool) → Except PyError Bool
  | [] => .ok false
  | poll :: rest =>
    match poll with
    | .error e => .error e
    | .ok true => .ok true
    | .ok false => waitFor rest

/-- `TabbyConnection.wait_for_angular` (lines 229-250): a poll every 0.05s
until the deadline, each `execute_js` call wrapped in `try: ... except
Exception: pass`.  A truthy outcome returns `True`; an exception or a falsy
outcome keeps polling; the deadline returns `True` ("proceed anyway"). -/
def waitForAngular : List (Except PyError Bool) → Bool
  | [] => true
  | poll :: rest =>
    match poll with
    | .ok true => true
    | _ => waitForAngular rest

/-- The body of `query_with_retry`'s loop (lines 164-170) over the remaining
attempt numbers (Python: `for attempt in range(max_retries)`).  `results`
gives the outcome of the `query` call of each attempt.  The value returned is
paired with the number of `query` calls made and the number of
`time.sleep(retry_delay)` calls made (`if attempt < max_retries - 1`). -/
def queryRetryLoop (results : Nat → List α) (maxRetries : Nat) :
    List Nat → List α × Nat × Nat
  | [] => ([], 0, 0)
  | attempt :: rest =>
    let r := results attempt
    if r.isEmpty then
      let sleeps : Nat := if attempt < maxRetries - 1 then 1 else 0
      let out := queryRetryLoop results maxRetries rest
      (out.1, out.2.1 + 1, out.2.2 + sleeps)
    else
      (r, 1, 0)

/-- `TabbyConnection.query_with_retry` (lines 151-170), instrumented with the
attempt and sleep counts. -/
def queryWithRetry (results : Nat → List α) (maxRetries : Nat) :
    List α × Nat × Nat :=
  queryRetryLoop results maxRetries (List.range maxRetries)

/-- `get_connection(port)` (lines 267-272): the module-level singleton.  The
global `_connection` is the explicit `Option TabbyConnection` state; the call
returns the connection together with the new global state. -/
def getConnection (port : Nat) (g : Option TabbyConnection) :
    TabbyConnection × Option TabbyConnection :=
  match g with
  | none =>
    let c := TabbyConnection.init port
    (c, some c)
  | some c => (c, some c)

/-! ## Basic lemmas about the session cache -/

theorem ensureBrowser_browser (c : TabbyConnection) :
    (ensureBrowser c).browser = true := by
  unfold ensureBrowser
  split
  · assumption
  · rfl

theorem ensureBrowser_of_browser (c : TabbyConnection) (h : c.browser = true) :
    ensureBrowser c = c := by
  unfold ensureBrowser
  split
  · rfl
  · exact absurd h (by assumption)

theorem ensureBrowser_tabs (c : TabbyConnection) :
    (ensureBrowser c).tabs = c.tabs := by
  unfold ensureBrowser
  split <;> rfl

theorem ensureBrowser_nextSid (c : TabbyConnection) :
    (ensureBrowser c).nextSid = c.nextSid := by
  unfold ensureBrowser
  split <;> rfl

theorem ensureBrowser_starts (c : TabbyConnection) :
    (ensureBrowser c).starts = c.starts := by
  unfold ensureBrowser
  split <;> rfl

theorem lookupTab_append_self (m : List (String × Session)) (k : String) (v : Session)
    (h : lookupTab m k = none) : lookupTab (m ++ [(k, v)]) k = some v := by
  induction m with
  | nil => simp [lookupTab]
  | cons hd tl ih =>
    obtain ⟨k', v'⟩ := hd
    by_cases hk : k' = k
    · simp [lookupTab, hk] at h
    · simp only [lookupTab, List.cons_append, if_neg hk] at h ⊢
      exact ih h

theorem lookupTab_eq_none_iff (m : List (String × Session)) (k : String) :
    lookupTab m k = none ↔ k ∉ m.map Prod.fst := by
  induction m with
  | nil => simp [lookupTab]
  | cons hd tl ih =>
    obtain ⟨k', v'⟩ := hd
    by_cases hk : k' = k
    · simp [lookupTab, hk]
    · simp [lookupTab, hk, ih, Ne.symm hk]

/-! ## Claim theorems -/

/-- Claim C7: with the scoping flag true, `execute_js` submits the expression
embedded in an anonymous async function invocation and asks the remote side
to await the deferred result; with the flag false it submits the expression
verbatim without awaiting; in both cases the value is requested serialized by
value (`returnByValue = true`). -/
theorem executeJsRequest_scoping (expression : String) :
    executeJsRequest expression true =
      ⟨"(async () => \x7b " ++ expression ++ " \x7d)()", true, true⟩ ∧
    executeJsRequest expression false = ⟨expression, true, false⟩ := by
  exact ⟨rfl, rfl⟩

/-- Claim C6: when the evaluation reply reports an exception, the raised
error's message is exactly the reported text followed by `": "` and the
reported description when the description is non-empty, and the text alone
when the description is empty or absent; without an exception the reply's
`result.value` is returned, `none` (an explicit absence, not an error) when
missing. -/
theorem translateResult_fault_translation (txt d : String) (ro? : Option ResultObj)
    (v : JsVal) (hd : d ≠ "") :
    translateResult ⟨some ⟨some txt, some ⟨some d⟩⟩, ro?⟩ =
      .error (.runtimeError (txt ++ ": " ++ d)) ∧
    translateResult ⟨some ⟨some txt, some ⟨some ""⟩⟩, ro?⟩ =
      .error (.runtimeError txt) ∧
    translateResult ⟨some ⟨some txt, none⟩, ro?⟩ = .error (.runtimeError txt) ∧
    translateResult ⟨none, some ⟨some v⟩⟩ = .ok (some v) ∧
    translateResult ⟨none, some ⟨none⟩⟩ = .ok none ∧
    translateResult ⟨none, none⟩ = .ok none := by
  refine ⟨?_, rfl, rfl, rfl, rfl, rfl⟩
  simp [translateResult, hd]

/-- Witness for C6 at a concrete exception reply. -/
theorem translateResult_fault_translation_witness :
    translateResult ⟨some ⟨some "Uncaught", some ⟨some "Error: x"⟩⟩, none⟩ =
      .error (.runtimeError ("Uncaught" ++ ": " ++ "Error: x")) ∧
    translateResult ⟨some ⟨some "Uncaught", some ⟨some ""⟩⟩, none⟩ =
      .error (.runtimeError "Uncaught") ∧
    translateResult ⟨some ⟨some "Uncaught", none⟩, none⟩ =
      .error (.runtimeError "Uncaught") ∧
    translateResult ⟨none, some ⟨some (JsVal.num 2)⟩⟩ = .ok (some (JsVal.num 2)) ∧
    translateResult ⟨none, some ⟨none⟩⟩ = .ok none ∧
    translateResult ⟨none, none⟩ = .ok none :=
  translateResult_fault_translation "Uncaught" "Error: x" none (JsVal.num 2) (by decide)

/-- Claim C5: if no poll of `wait_for_angular` ever reports stability, the
deadline elapses and the primitive returns `true` (proceeds optimistically),
never `false` and never an error; moreover a poll that raises is swallowed
and treated exactly as a not-yet-stable poll. -/
theorem waitForAngular_timeout_optimistic (polls more : List (Except PyError Bool))
    (e : PyError) (h : ∀ p ∈ polls, p ≠ .ok true) :
    waitForAngular polls = true ∧
    waitForAngular (.error e :: more) = waitForAngular more := by
  refine ⟨?_, rfl⟩
  induction polls with
  | nil => rfl
  | cons p rest ih =>
    have hp : p ≠ .ok true := h p (List.mem_cons_self p rest)
    have hrest : ∀ q ∈ rest, q ≠ .ok true := fun q hq => h q (List.mem_cons_of_mem p hq)
    match p, hp with
    | .ok false, _ => exact ih hrest
    | .error e', _ => exact ih hrest
    | .ok true, hp => exact absurd rfl hp

/-- Witness for C5: two failing/unstable polls still end in `true`. -/
theorem waitForAngular_timeout_optimistic_witness :
    waitForAngular [.error PyError.indexError, .ok false] = true ∧
    waitForAngular (.error (PyError.runtimeError "boom") :: [.ok false]) =
      waitForAngular [.ok false] :=
  waitForAngular_timeout_optimistic [.error PyError.indexError, .ok false]
    [.ok false] (PyError.runtimeError "boom") (by simp)

/-- Claim C4, counterexample: a single failing poll makes `wait_for`
propagate the exception — the wait neither returns `true` nor `false`. -/
theorem waitFor_error_escapes_counterexample :
    waitFor [.error (PyError.runtimeError "boom")] =
      .error (PyError.runtimeError "boom") ∧
    waitFor [.error (PyError.runtimeError "boom")] ≠ .ok true ∧
    waitFor [.error (PyError.runtimeError "boom")] ≠ .ok false := by
  refine ⟨rfl, by simp [waitFor], by simp [waitFor]⟩

/-- Claim C4, amended: `wait_for` has no handler around its polls — the first
poll that raises (after any number of unsuccessful polls) aborts the wait
with that exception; only in the absence of raising polls does the wait
return `true` on the first successful check or `false` at the deadline. -/
theorem waitFor_error_propagation (pre post : List (Except PyError Bool)) (e : PyError)
    (hpre : ∀ p ∈ pre, p = .ok false) :
    waitFor (pre ++ .error e :: post) = .error e ∧
    waitFor (pre ++ [.ok true]) = .ok true ∧
    waitFor pre = .ok false := by
  induction pre with
  | nil => exact ⟨rfl, rfl, rfl⟩
  | cons p rest ih =>
    have hp : p = .ok false := hpre p (List.mem_cons_self p rest)
    have hrest : ∀ q ∈ rest, q = .ok false := fun q hq => hpre q (List.mem_cons_of_mem p hq)
    subst hp
    simpa [waitFor] using ih hrest

/-- Witness for C4's amended theorem at a concrete poll sequence. -/
theorem waitFor_error_propagation_witness :
    waitFor ([.ok false] ++ .error PyError.indexError :: [.ok true]) =
      .error PyError.indexError ∧
    waitFor ([.ok false] ++ [.ok true]) = .ok true ∧
    waitFor [.ok false] = .ok false :=
  waitFor_error_propagation [.ok false] [.ok true] PyError.indexError (by simp)

/-- Claim C10: after the first `get_connection` call creates the process-wide
singleton, every later call returns that same instance unchanged and ignores
its `port` argument: the state is untouched, and the returned connection
still carries the first call's port, not the later argument. -/
theorem getConnection_singleton (p1 p2 : Nat) (c : TabbyConnection) :
    getConnection p2 (getConnection p1 none).2 =
      ((getConnection p1 none).1, (getConnection p1 none).2) ∧
    (getConnection p2 (getConnection p1 none).2).1.port = p1 ∧
    getConnection p2 (some c) = (c, some c) := by
  exact ⟨rfl, rfl, rfl⟩

/-! ## Resolution and cache lemmas for get_tab -/

theorem pyIndex_out_of_range (l : List α) (i : Int)
    (h : (l.length : Int) ≤ i ∨ i < -(l.length : Int)) : pyIndex l i = none := by
  unfold pyIndex
  rcases h with h | h
  · rw [if_pos (by omega)]
    exact List.get?_eq_none.mpr (by omega)
  · rw [if_neg (by omega), if_neg (by omega)]

theorem pyIndex_neg (l : List α) (k : Nat) (h1 : 1 ≤ k) (h2 : k ≤ l.length) :
    pyIndex l (-(k : Int)) = l.get? (l.length - k) := by
  unfold pyIndex
  rw [if_neg (by omega), if_pos (by simpa [Int.natAbs_neg] using h2)]
  simp [Int.natAbs_neg]

theorem pyIndex_nat (l : List α) (n : Nat) : pyIndex l (n : Int) = l.get? n := by
  unfold pyIndex
  rw [if_pos (by omega)]
  simp

/-- Everything a successful `get_tab` call guarantees: the specifier resolved
to some handle, the cache afterwards maps that handle's identity to the
returned session, the browser handle exists, at most one `start()` happened,
key-uniqueness of the cache is preserved, and the fetched list was
non-empty. -/
theorem getTab_ok_facts (c c' : TabbyConnection) (tabList : List TabHandle)
    (target : Specifier) (s : Session)
    (h : getTab c tabList target = .ok (s, c')) :
    (∃ t, resolveSpec tabList target = .ok t ∧
       lookupTab c'.tabs t.websocket_url = some s) ∧
    c'.browser = true ∧
    c'.starts.length ≤ c.starts.length + 1 ∧
    ((c.tabs.map Prod.fst).Nodup → (c'.tabs.map Prod.fst).Nodup) ∧
    tabList.isEmpty = false := by
  simp only [getTab] at h
  split at h
  · exact absurd h (by simp)
  next hne =>
    split at h
    next e heq => exact absurd h (by simp)
    next t heq =>
      split at h
      next s0 hlk =>
        simp only [Except.ok.injEq, Prod.mk.injEq] at h
        obtain ⟨hs, hc⟩ := h
        subst hs
        subst hc
        refine ⟨⟨t, heq, ?_⟩, ensureBrowser_browser c, ?_, ?_, by simpa using hne⟩
        · exact hlk
        · simp [ensureBrowser_starts]
        · intro hnd
          simpa [ensureBrowser_tabs] using hnd
      next hlk =>
        simp only [Except.ok.injEq, Prod.mk.injEq] at h
        obtain ⟨hs, hc⟩ := h
        subst hs
        subst hc
        refine ⟨⟨t, heq, ?_⟩, ensureBrowser_browser c, ?_, ?_, by simpa using hne⟩
        · exact lookupTab_append_self _ _ _ hlk
        · simp [ensureBrowser_starts]
        · intro hnd
          have hkey : t.websocket_url ∉ (ensureBrowser c).tabs.map Prod.fst :=
            (lookupTab_eq_none_iff _ _).mp hlk
          have hnd' : ((ensureBrowser c).tabs.map Prod.fst).Nodup := by
            simpa [ensureBrowser_tabs] using hnd
          simp only [List.map_append, List.map_cons, List.map_nil]
          rw [List.nodup_append]
          refine ⟨hnd', List.nodup_singleton _, ?_⟩
          intro x hx hx'
          rw [List.mem_singleton] at hx'
          subst hx'
          exact hkey hx

/-- A `get_tab` call hitting the cache returns the cached session and leaves
the state untouched. -/
theorem getTab_cache_hit (c : TabbyConnection) (tabList : List TabHandle)
    (target : Specifier) (t : TabHandle) (s : Session)
    (hb : c.browser = true)
    (hne : tabList.isEmpty = false)
    (hres : resolveSpec tabList target = .ok t)
    (hlk : lookupTab c.tabs t.websocket_url = some s) :
    getTab c tabList target = .ok (s, c) := by
  simp only [getTab, ensureBrowser_of_browser c hb, hne, hres, hlk]
  rfl

/-- Claim C1: resolving the same target twice in succession (with no
intervening `disconnect`) returns the identical cached Session object both
times and leaves the second call's state untouched — so across the two calls
the underlying session is started at most once and no second connection to
the same page is ever created; key-uniqueness of the cache (at most one live
session per identity) is preserved. -/
theorem getTab_cached_session (c0 c1 c2 : TabbyConnection)
    (tabList : List TabHandle) (target : Specifier) (s1 s2 : Session)
    (h1 : getTab c0 tabList target = .ok (s1, c1))
    (h2 : getTab c1 tabList target = .ok (s2, c2)) :
    s2 = s1 ∧ c2 = c1 ∧ c1.starts.length ≤ c0.starts.length + 1 ∧
    ((c0.tabs.map Prod.fst).Nodup → (c1.tabs.map Prod.fst).Nodup) := by
  obtain ⟨⟨t, hres, hlk⟩, hb, hstarts, hnd, hne⟩ :=
    getTab_ok_facts c0 c1 tabList target s1 h1
  have h2' := getTab_cache_hit c1 tabList target t s1 hb hne hres hlk
  rw [h2'] at h2
  simp only [Except.ok.injEq, Prod.mk.injEq] at h2
  exact ⟨h2.1.symm, h2.2.symm, hstarts, hnd⟩

/-- Witness for C1: a fresh connection, one tab, resolved twice by index. -/
theorem getTab_cached_session_witness :
    (⟨"w1", 0⟩ : Session) = ⟨"w1", 0⟩ ∧
    (⟨9222, true, [("w1", ⟨"w1", 0⟩)], 1, ["w1"]⟩ : TabbyConnection) =
      ⟨9222, true, [("w1", ⟨"w1", 0⟩)], 1, ["w1"]⟩ ∧
    (⟨9222, true, [("w1", ⟨"w1", 0⟩)], 1, ["w1"]⟩ : TabbyConnection).starts.length ≤
      (TabbyConnection.init 9222).starts.length + 1 ∧
    (((TabbyConnection.init 9222).tabs.map Prod.fst).Nodup →
      ((⟨9222, true, [("w1", ⟨"w1", 0⟩)], 1, ["w1"]⟩ : TabbyConnection).tabs.map
        Prod.fst).Nodup) :=
  getTab_cached_session (TabbyConnection.init 9222)
    ⟨9222, true, [("w1", ⟨"w1", 0⟩)], 1, ["w1"]⟩
    ⟨9222, true, [("w1", ⟨"w1", 0⟩)], 1, ["w1"]⟩
    [⟨"w1"⟩] (Specifier.idx 0) ⟨"w1", 0⟩ ⟨"w1", 0⟩ rfl rfl

/-- Claim C3, counterexample: on a one-element handle list the out-of-range
integer specifier `5` escapes as a raw `IndexError`, while an unmatched
identity string raises `ValueError` — a different error kind, so integer
out-of-range resolution does not fail with the domain error used for
unmatched identities. -/
theorem getTab_out_of_range_counterexample :
    getTab (TabbyConnection.init 9222) [⟨"w1"⟩] (Specifier.idx 5) =
      .error PyError.indexError ∧
    getTab (TabbyConnection.init 9222) [⟨"w1"⟩] (Specifier.ws "nope") =
      .error (PyError.valueError ("Target not found: " ++ "nope")) ∧
    PyError.indexError ≠ PyError.valueError ("Target not found: " ++ "nope") := by
  refine ⟨rfl, rfl, by decide⟩

/-- Claim C3, amended: for a non-empty handle list, an integer specifier out
of range in either direction makes `get_tab` raise the raw language-level
`IndexError` from `tabs[target]`, whereas an identity string matching no
handle raises `ValueError("Target not found: ...")` — distinct error kinds,
with no translation of the indexing fault into the domain error. -/
theorem getTab_out_of_range_raw_fault (c : TabbyConnection) (tabList : List TabHandle)
    (i : Int) (s : String) (hne : tabList ≠ [])
    (hout : (tabList.length : Int) ≤ i ∨ i < -(tabList.length : Int))
    (hmiss : ∀ t ∈ tabList, t.websocket_url ≠ s) :
    getTab c tabList (Specifier.idx i) = .error PyError.indexError ∧
    getTab c tabList (Specifier.ws s) =
      .error (PyError.valueError ("Target not found: " ++ s)) := by
  have hne' : tabList.isEmpty = false := by
    cases tabList with
    | nil => exact absurd rfl hne
    | cons a l => rfl
  have hidx : resolveSpec tabList (Specifier.idx i) = .error PyError.indexError := by
    simp only [resolveSpec, pyIndex_out_of_range tabList i hout]
  have hfind : tabList.find? (fun t => t.websocket_url == s) = none := by
    rw [List.find?_eq_none]
    intro t ht
    simpa using hmiss t ht
  have hws : resolveSpec tabList (Specifier.ws s) =
      .error (PyError.valueError ("Target not found: " ++ s)) := by
    simp only [resolveSpec, hfind]
  constructor
  · simp only [getTab, hne', hidx]
    rfl
  · simp only [getTab, hne', hws]
    rfl

/-- Witness for C3's amended theorem on a concrete one-element list. -/
theorem getTab_out_of_range_raw_fault_witness :
    getTab (TabbyConnection.init 9000) [⟨"wit"⟩] (Specifier.idx 5) =
      .error PyError.indexError ∧
    getTab (TabbyConnection.init 9000) [⟨"wit"⟩] (Specifier.ws "absent") =
      .error (PyError.valueError ("Target not found: " ++ "absent")) :=
  getTab_out_of_range_raw_fault (TabbyConnection.init 9000) [⟨"wit"⟩] 5 "absent"
    (by decide) (Or.inl (by decide)) (by decide)

/-- Claim C9: on a non-empty handle list of length `n`, the negative
specifier `-k` (for `1 ≤ k ≤ n`) resolves to the same handle as the
specifier `n - k`, hence `get_tab` yields the same session either way; in
particular `-1` behaves as `n - 1`. -/
theorem getTab_neg_index_equiv (c : TabbyConnection) (tabList : List TabHandle)
    (k : Nat) (hk1 : 1 ≤ k) (hk2 : k ≤ tabList.length) :
    resolveSpec tabList (Specifier.idx (-(k : Int))) =
      resolveSpec tabList (Specifier.idx ((tabList.length - k : Nat) : Int)) ∧
    getTab c tabList (Specifier.idx (-(k : Int))) =
      getTab c tabList (Specifier.idx ((tabList.length - k : Nat) : Int)) := by
  have hres : resolveSpec tabList (Specifier.idx (-(k : Int))) =
      resolveSpec tabList (Specifier.idx ((tabList.length - k : Nat) : Int)) := by
    simp only [resolveSpec, pyIndex_neg tabList k hk1 hk2, pyIndex_nat]
  refine ⟨hres, ?_⟩
  simp only [getTab, hres]

/-- Witness for C9: `-1` and `length - 1 = 1` on a two-element list. -/
theorem getTab_neg_index_equiv_witness :
    resolveSpec [(⟨"a"⟩ : TabHandle), ⟨"b"⟩] (Specifier.idx (-(1 : Nat) : Int)) =
      resolveSpec [(⟨"a"⟩ : TabHandle), ⟨"b"⟩]
        (Specifier.idx ((([(⟨"a"⟩ : TabHandle), ⟨"b"⟩].length - 1 : Nat)) : Int)) ∧
    getTab (TabbyConnection.init 9222) [(⟨"a"⟩ : TabHandle), ⟨"b"⟩]
        (Specifier.idx (-(1 : Nat) : Int)) =
      getTab (TabbyConnection.init 9222) [(⟨"a"⟩ : TabHandle), ⟨"b"⟩]
        (Specifier.idx ((([(⟨"a"⟩ : TabHandle), ⟨"b"⟩].length - 1 : Nat)) : Int)) :=
  getTab_neg_index_equiv (TabbyConnection.init 9222) [⟨"a"⟩, ⟨"b"⟩] 1
    (by decide) (by decide)

/-! ## Listing lemmas for list_targets -/

/-- Projecting the index away, the comprehension over `enumerate` agrees with
a plain filter of the raw listing: the kept entries are exactly the
page-typed ones, in order. -/
theorem enumFrom_filter_map_snd {α β : Type} (p : α → Bool) (f : α → β) :
    ∀ (l : List α) (n : Nat),
      ((List.enumFrom n l).filter (fun q => p q.2)).map (fun q => f q.2) =
        (l.filter p).map f := by
  intro l
  induction l with
  | nil => intro n; rfl
  | cons a tl ih =>
    intro n
    by_cases hp : p a
    · simp [List.filter_cons, hp, ih]
    · simp [List.filter_cons, hp, ih]

/-- Every descriptor produced from `enumFrom n` carries the ordinal position
of its source entry in the enumerated (raw) list. -/
theorem listTargets_enumFrom_mem (l : List RawTarget) :
    ∀ (n : Nat) (d : TargetDescriptor),
      d ∈ ((List.enumFrom n l).filter (fun q => q.2.type? == some "page")).map
            (fun q => descOf q.1 q.2) →
      n ≤ d.index ∧ ∃ t, l.get? (d.index - n) = some t ∧
        t.type? = some "page" ∧ d = descOf d.index t := by
  induction l with
  | nil =>
    intro n d hd
    simp at hd
  | cons a tl ih =>
    intro n d hd
    by_cases hp : a.type? == some "page"
    · rw [List.enumFrom_cons, List.filter_cons] at hd
      simp only [hp, if_pos] at hd
      rw [List.map_cons, List.mem_cons] at hd
      rcases hd with hd | hd
      · subst hd
        refine ⟨le_refl n, a, ?_, by simpa using hp, rfl⟩
        simp [descOf]
      · obtain ⟨hn, t, hget, htype, hdesc⟩ := ih (n + 1) d hd
        refine ⟨by omega, t, ?_, htype, hdesc⟩
        have hidx : d.index - n = (d.index - (n + 1)) + 1 := by omega
        rw [hidx]
        simpa using hget
    · rw [List.enumFrom_cons, List.filter_cons] at hd
      simp only [hp] at hd
      rw [if_neg (by simp [hp])] at hd
      obtain ⟨hn, t, hget, htype, hdesc⟩ := ih (n + 1) d hd
      refine ⟨by omega, t, ?_, htype, hdesc⟩
      have hidx : d.index - n = (d.index - (n + 1)) + 1 := by omega
      rw [hidx]
      simpa using hget

/-- Claim C2, counterexample: with one non-page entry in front of one page
entry, the single kept descriptor carries index 1 — its ordinal in the raw
listing — not the consecutive filtered position 0. -/
theorem listTargets_filtered_positions_counterexample :
    listTargets [⟨some "other", none, none, none⟩,
                 ⟨some "page", some "p", some "u", some "w"⟩] =
      [⟨1, "p", "u", "w"⟩] ∧
    (listTargets [⟨some "other", none, none, none⟩,
                  ⟨some "page", some "p", some "u", some "w"⟩]).map
        TargetDescriptor.index ≠
      List.range (listTargets [⟨some "other", none, none, none⟩,
                               ⟨some "page", some "p", some "u", some "w"⟩]).length := by
  refine ⟨rfl, by decide⟩

/-- Claim C2, amended: `list_targets` keeps exactly the raw entries whose
type is `"page"`, in their original order, but each kept descriptor's index
is its ordinal position in the RAW listing (`enumerate` runs before the
filter), so the indices need not be consecutive nor start at 0. -/
theorem listTargets_raw_ordinals (targets : List RawTarget) :
    (listTargets targets).map (fun d => (d.title, d.url, d.ws_url)) =
      (targets.filter (fun t => t.type? == some "page")).map
        (fun t => (t.title?.getD "", t.url?.getD "", t.webSocketDebuggerUrl?.getD "")) ∧
    ∀ d ∈ listTargets targets, ∃ t, targets.get? d.index = some t ∧
      t.type? = some "page" ∧ d = descOf d.index t := by
  have henum : targets.enum = List.enumFrom 0 targets := rfl
  constructor
  · have h := enumFrom_filter_map_snd (fun t => t.type? == some "page")
      (fun t => (t.title?.getD "", t.url?.getD "", t.webSocketDebuggerUrl?.getD ""))
      targets 0
    rw [listTargets, henum, List.map_map]
    rw [← h]
    rfl
  · intro d hd
    rw [listTargets, henum] at hd
    obtain ⟨hn, t, hget, htype, hdesc⟩ := listTargets_enumFrom_mem targets 0 d hd
    exact ⟨t, by simpa using hget, htype, hdesc⟩

/-- Witness for C2's amended theorem: the kept descriptor of the
counterexample listing indeed points back at raw position 1. -/
theorem listTargets_raw_ordinals_witness :
    ∃ t, [⟨some "other", none, none, none⟩,
          (⟨some "page", some "p", some "u", some "w"⟩ : RawTarget)].get?
            (⟨1, "p", "u", "w"⟩ : TargetDescriptor).index = some t ∧
      t.type? = some "page" ∧
      (⟨1, "p", "u", "w"⟩ : TargetDescriptor) =
        descOf (⟨1, "p", "u", "w"⟩ : TargetDescriptor).index t :=
  (listTargets_raw_ordinals [⟨some "other", none, none, none⟩,
    ⟨some "page", some "p", some "u", some "w"⟩]).2 ⟨1, "p", "u", "w"⟩ (by decide)

/-! ## Retry-loop lemmas for query_with_retry -/

/-- The retry loop with no remaining attempts. -/
theorem queryRetryLoop_nil {α : Type} (results : Nat → List α) (mr : Nat) :
    queryRetryLoop results mr [] = ([], 0, 0) := by
  rfl

/-- One step of the retry loop. -/
theorem queryRetryLoop_cons {α : Type} (results : Nat → List α) (mr a : Nat)
    (rest : List Nat) :
    queryRetryLoop results mr (a :: rest) =
      if (results a).isEmpty then
        ((queryRetryLoop results mr rest).1,
         (queryRetryLoop results mr rest).2.1 + 1,
         (queryRetryLoop results mr rest).2.2 + if a < mr - 1 then 1 else 0)
      else (results a, 1, 0) := by
  rfl

/-- When every remaining attempt yields an empty result, the loop exhausts
all of them, sleeping after each attempt except the last. -/
theorem queryRetryLoop_all_empty {α : Type} (results : Nat → List α) (mr : Nat) :
    ∀ (len s : Nat), s + len = mr →
      (∀ j, s ≤ j → j < mr → results j = []) →
      queryRetryLoop results mr (List.range' s len) = ([], len, len - 1) := by
  intro len
  induction len with
  | zero =>
    intro s hs h
    rfl
  | succ n ih =>
    intro s hs h
    rw [List.range'_succ]
    have hrs : results s = [] := h s (le_refl s) (by omega)
    have hout := ih (s + 1) (by omega) (fun j h1 h2 => h j (by omega) h2)
    rw [queryRetryLoop_cons, hrs]
    cases n with
    | zero =>
      have hflag : ¬ (s < mr - 1) := by omega
      simp [queryRetryLoop_nil, hflag]
    | succ m =>
      have hflag : s < mr - 1 := by omega
      simp [hout, hflag]

/-- The loop stops at the first attempt whose result is non-empty, having
made one query per attempt so far and slept between consecutive attempts. -/
theorem queryRetryLoop_first_nonempty {α : Type} (results : Nat → List α) (mr : Nat) :
    ∀ (len s k : Nat), s + len = mr → s ≤ k → k < mr →
      (∀ j, s ≤ j → j < k → results j = []) →
      results k ≠ [] →
      queryRetryLoop results mr (List.range' s len) = (results k, k - s + 1, k - s) := by
  intro len
  induction len with
  | zero =>
    intro s k hs hsk hk hempty hne
    exact absurd hk (by omega)
  | succ n ih =>
    intro s k hs hsk hk hempty hne
    rw [List.range'_succ]
    by_cases hek : s = k
    · subst hek
      have hne' : (results s).isEmpty = false := by
        cases hres : results s with
        | nil => exact absurd hres hne
        | cons a l => rfl
      rw [queryRetryLoop_cons, hne']
      simp
    · have hrs : results s = [] := hempty s (le_refl s) (by omega)
      have hout := ih (s + 1) k (by omega) (by omega) hk
        (fun j hj1 hj2 => hempty j (by omega) hj2) hne
      have hflag : s < mr - 1 := by omega
      have ha1 : k - (s + 1) + 1 + 1 = k - s + 1 := by omega
      have ha2 : k - (s + 1) + 1 = k - s := by omega
      rw [queryRetryLoop_cons, hrs]
      simp [hout, hflag, ha1, ha2]

/-- Claim C8: with `max_retries ≥ 1`, `query_with_retry` makes at most
`max_retries` query calls; if every attempt yields empty it returns the
empty sequence after exactly `max_retries` attempts and `max_retries - 1`
sleeps; if attempt `k` (0-based) is the first non-empty one it returns that
result immediately after exactly `k + 1` attempts and `k` sleeps — sleeping
only between attempts, never after the last. -/
theorem queryWithRetry_spec {α : Type} (results : Nat → List α) (maxRetries k : Nat)
    (hmr : 1 ≤ maxRetries) :
    ((∀ j, j < maxRetries → results j = []) →
       queryWithRetry results maxRetries = ([], maxRetries, maxRetries - 1)) ∧
    (k < maxRetries → (∀ j, j < k → results j = []) → results k ≠ [] →
       queryWithRetry results maxRetries = (results k, k + 1, k)) := by
  constructor
  · intro h
    have hlem := queryRetryLoop_all_empty results maxRetries maxRetries 0 (by omega)
      (fun j h1 h2 => h j h2)
    simpa [queryWithRetry, List.range_eq_range'] using hlem
  · intro hk hempty hne
    have hlem := queryRetryLoop_first_nonempty results maxRetries maxRetries 0 k
      (by omega) (by omega) hk (fun j h1 h2 => hempty j h2) hne
    simpa [queryWithRetry, List.range_eq_range'] using hlem

/-- Witness for C8: empty on attempts 0 and 1, non-empty on attempt 2, with
`max_retries = 3` — the third result is returned after exactly 3 attempts
and 2 sleeps. -/
theorem queryWithRetry_spec_witness :
    queryWithRetry (fun j => if j = 2 then [7] else ([] : List Nat)) 3 =
      ((fun j => if j = 2 then [7] else ([] : List Nat)) 2, 2 + 1, 2) :=
  (queryWithRetry_spec (fun j => if j = 2 then [7] else ([] : List Nat)) 3 2
    (by decide)).2 (by decide) (by decide) (by decide)
